import Mathlib

/-!
Verification development for the ICONAT proceedings monitor (`checker.py`).

The embedding models the Python source at the level BeautifulSoup exposes:
page content is a tree of element/text nodes (the result of HTML parsing),
strings are lists of characters, and the persisted JSON state file is a
JSON value.  Python `str.lower()` is modelled character-wise (the tokens
involved are ASCII), `str.strip()` strips whitespace at both ends, and
Python substring tests (`x in y`) are modelled by `containsSub`.
-/

set_option maxRecDepth 4000

/-- Python strings, as lists of characters. -/
abbrev Str := List Char

/-- Python `str.lower()`, character-wise (faithful on ASCII, which covers
every token the program compares against). -/
def lowerStr (x : Str) : Str := x.map Char.toLower

/-- Python `str.strip()`: drop whitespace from both ends. -/
def pyStrip (x : Str) : Str :=
  ((x.dropWhile Char.isWhitespace).reverse.dropWhile Char.isWhitespace).reverse

/-- Does `pre` occur at the start of `l`? -/
def startsWithList : Str → Str → Bool
  | [], _ => true
  | _ :: _, [] => false
  | a :: as, b :: bs => a == b && startsWithList as bs

/-- Python `needle in hay` (substring containment). -/
def containsSub : Str → Str → Bool
  | [], needle => needle.isEmpty
  | a :: t, needle => startsWithList needle (a :: t) || containsSub t needle

/-- Python `text.split(c)` for a one-character separator: split at every
occurrence, keeping empty pieces. -/
def splitOnChar (c : Char) : Str → List Str
  | [] => [[]]
  | a :: rest =>
    match splitOnChar c rest with
    | [] => [[]]
    | h :: t => if a = c then [] :: h :: t else (a :: h) :: t

/-- A parsed HTML node, as BeautifulSoup exposes it: an element with a tag
name, attributes and children, or a text node. -/
inductive Node where
  | text : Str → Node
  | elem : Str → List (Str × Str) → List Node → Node

mutual

/-- All text-node contents below a node, in document order
(BeautifulSoup `strings` of the subtree). -/
def nodeStrings : Node → List Str
  | .text t => [t]
  | .elem _ _ cs => nodesStrings cs

def nodesStrings : List Node → List Str
  | [] => []
  | c :: cs => nodeStrings c ++ nodesStrings cs

end

/-- BeautifulSoup `get_text(separator=sep, strip=True)`: each descendant
string is stripped, empty results are skipped, the rest joined by `sep`. -/
def getText (sep : Str) (n : Node) : Str :=
  List.intercalate sep (((nodeStrings n).map pyStrip).filter (fun t => !t.isEmpty))

mutual

/-- Elements with a tag in `tags` among a node's proper descendants,
in document (pre-)order — BeautifulSoup `find_all`. -/
def faNode (tags : List Str) : Node → List Node
  | .text _ => []
  | .elem t a cs => (if t ∈ tags then [Node.elem t a cs] else []) ++ faList tags cs

def faList (tags : List Str) : List Node → List Node
  | [] => []
  | n :: ns => faNode tags n ++ faList tags ns

end

/-- BeautifulSoup `find_all(tags)` on a node: matching proper descendants
in document order (the node itself is not a candidate). -/
def findAllTags (tags : List Str) : Node → List Node
  | .text _ => []
  | .elem _ _ cs => faList tags cs

mutual

/-- Every descendant element paired with its chain of enclosing elements
(nearest ancestor first), in document order. -/
def eaNode : List Node → Node → List (Node × List Node)
  | _, .text _ => []
  | anc, .elem t a cs => (Node.elem t a cs, anc) :: eaList (Node.elem t a cs :: anc) cs

def eaList : List Node → List Node → List (Node × List Node)
  | _, [] => []
  | anc, n :: ns => eaNode anc n ++ eaList anc ns

end

/-- All elements of a document with their ancestor chains; the synthetic
root (BeautifulSoup's `[document]`) is included in the chains but its tag
matches no tag filter the program uses. -/
def docElems (doc : Node) : List (Node × List Node) :=
  match doc with
  | .text _ => []
  | .elem _ _ cs => eaList [doc] cs

/-- Tag of a node (empty for text nodes). -/
def nodeTag : Node → Str
  | .text _ => []
  | .elem t _ _ => t

/-- Is `n` an element whose tag is in `tags`? -/
def isElemWithTagIn (tags : List Str) (n : Node) : Bool :=
  match n with
  | .elem t _ _ => t ∈ tags
  | .text _ => false

/-- BeautifulSoup `tag.get(key, "")` on an element's attributes. -/
def attrGet (n : Node) (k : Str) : Str :=
  match n with
  | .elem _ attrs _ =>
    match attrs.find? (fun p => decide (p.1 = k)) with
    | some p => p.2
    | none => []
  | .text _ => []

/-- Year tokens used by all three extraction strategies
(`["2022", "2023", "2024", "2025"]` in `parse_proceedings`). -/
def yearTokens : List Str := ["2022".data, "2023".data, "2024".data, "2025".data]

/-- Conference tokens of strategy 1 (line-proximity). -/
def confTokens1 : List Str :=
  ["iconat".data, "international conference".data,
   "conference for advancement".data, "advancement in technology".data]

/-- Conference tokens of strategy 2 (structural elements) — note the source
omits "advancement in technology" here. -/
def confTokens2 : List Str :=
  ["iconat".data, "international conference".data, "conference for advancement".data]

/-- `any(year in t for year in [...])` (case-sensitive). -/
def hasYear (t : Str) : Bool := yearTokens.any (fun y => containsSub t y)

/-- `any(keyword in t.lower() for keyword in toks)`. -/
def hasConf (toks : List Str) (t : Str) : Bool :=
  toks.any (fun k => containsSub (lowerStr t) k)

/-- Strategy 1 anchor test on one flattened line of page text. -/
def lineAnchor (line : Str) : Bool := hasYear line && hasConf confTokens1 line

/-- Strategy 1 continuation test for a lookahead line: contains "location"
case-insensitively, or is shorter than 100 characters, or has a digit among
its first 10 characters. -/
def looksCont (nl : Str) : Bool :=
  containsSub (lowerStr nl) "location".data ||
  decide (nl.length < 100) ||
  (nl.take 10).any Char.isDigit

/-- Strategy 1 lookahead: absorb up to the next 2 lines after anchor `line`
at index `i`, stopping at the first non-continuation line. -/
def absorbEntry (lines : List Str) (i : Nat) (line : Str) : Str :=
  match lines[i+1]? with
  | none => line
  | some n1 =>
    if looksCont n1 then
      match lines[i+2]? with
      | none => line ++ ' ' :: n1
      | some n2 =>
        if looksCont n2 then line ++ ' ' :: n1 ++ ' ' :: n2 else line ++ ' ' :: n1
    else line

/-- The flattened, stripped, non-empty lines of the page text
(`page_text.split("\n")` after `get_text(separator="\n", strip=True)`). -/
def pageLinesOf (doc : Node) : List Str :=
  ((splitOnChar '\n' (getText "\n".data doc)).map pyStrip).filter (fun l => !l.isEmpty)

/-- Tags searched by strategy 2. -/
def tags2 : List Str := ["li".data, "div".data, "p".data, "span".data, "article".data]

/-- Tags collected inside the "All Proceedings" section by strategy 3. -/
def tags3 : List Str := ["li".data, "div".data, "p".data]

/-- Tags treated as headings when locating the "All Proceedings" section. -/
def headingTags : List Str :=
  ["h1".data, "h2".data, "h3".data, "h4".data, "h5".data, "h6".data, "a".data, "button".data]

/-- Tags accepted by `find_parent` for the section container. -/
def containerTags : List Str :=
  ["div".data, "section".data, "article".data, "main".data]

/-- Does a heading-like element select the "All Proceedings" section:
its text contains "All Proceedings" (case-sensitive) or its `href`
contains "all-proceedings" (case-insensitive)? -/
def headingMatches (n : Node) : Bool :=
  containsSub (getText [] n) "All Proceedings".data ||
  containsSub (lowerStr (attrGet n "href".data)) "all-proceedings".data

/-- Strategy 3 section lookup: the first heading/link/button matching
`headingMatches` that has an enclosing div/section/article/main; headings
without such a parent are skipped and the scan continues. -/
def findSection (doc : Node) : Option Node :=
  ((docElems doc).filterMap (fun pr =>
    if isElemWithTagIn headingTags pr.1 && headingMatches pr.1 then
      pr.2.find? (isElemWithTagIn containerTags)
    else none)).head?

/-- Strategy 2 per-element emission test, as the source writes it
(`len > 20`, a year token, and a `confTokens2` conference token). -/
def emitStrategy2 (t : Str) : Bool :=
  decide (t.length > 20) && hasYear t && hasConf confTokens2 t

/-- Strategy 3 per-element emission test inside the located section
(`len > 20` and a year token; no conference token required). -/
def emitStrategy3 (t : Str) : Bool :=
  decide (t.length > 20) && hasYear t

/-- The de-duplication key: first 100 characters of the lower-cased entry. -/
def dedupKey (e : Str) : Str := (lowerStr e).take 100

/-- The de-duplication loop of `parse_proceedings`, with the `seen` key set
and the `unique_entries` accumulator made explicit. -/
def dedupLoop : List Str → List Str → List Str → List Str
  | _, unique, [] => unique
  | seen, unique, e :: rest =>
    if dedupKey e ∈ seen then dedupLoop seen unique rest
    else dedupLoop (dedupKey e :: seen) (unique ++ [e]) rest

/-- `parse_proceedings`, embedded statement-for-statement: strategy 1 over
the flattened lines, strategy 2 over structural elements only when
strategy 1 produced nothing, strategy 3 over the "All Proceedings" section
unconditionally, then de-duplication. -/
def parse_proceedings (doc : Node) : List Str :=
  let lines := pageLinesOf doc
  let entries0 : List Str :=
    lines.enum.foldl
      (fun acc p => if lineAnchor p.2 then acc ++ [pyStrip (absorbEntry lines p.1 p.2)] else acc)
      []
  let entries1 :=
    if entries0.isEmpty then
      (findAllTags tags2 doc).foldl
        (fun acc el =>
          if emitStrategy2 (getText " ".data el) then acc ++ [getText " ".data el] else acc)
        entries0
    else entries0
  let sectionEntries : List Str :=
    match findSection doc with
    | none => []
    | some sec =>
      (findAllTags tags3 sec).foldl
        (fun acc el =>
          if emitStrategy3 (getText " ".data el) then acc ++ [getText " ".data el] else acc)
        []
  let entries2 := if sectionEntries.isEmpty then entries1 else entries1 ++ sectionEntries
  dedupLoop [] [] entries2

/-- Strategy 1 as a standalone function (line-proximity extraction). -/
def strategy1 (lines : List Str) : List Str :=
  lines.enum.filterMap
    (fun p => if lineAnchor p.2 then some (pyStrip (absorbEntry lines p.1 p.2)) else none)

/-- Strategy 2 as a standalone function (structural elements). -/
def strategy2 (doc : Node) : List Str :=
  (findAllTags tags2 doc).filterMap
    (fun el => if emitStrategy2 (getText " ".data el) then some (getText " ".data el) else none)

/-- Strategy 3 as a standalone function (section-scoped extraction). -/
def strategy3 (doc : Node) : List Str :=
  match findSection doc with
  | none => []
  | some sec =>
    (findAllTags tags3 sec).filterMap
      (fun el => if emitStrategy3 (getText " ".data el) then some (getText " ".data el) else none)

/-- Order-preserving de-duplication keeping the first entry of each key,
starting from an initial set of already-seen keys. -/
def dedupFilter (seen : List Str) : List Str → List Str
  | [] => []
  | e :: rest =>
    if dedupKey e ∈ seen then dedupFilter seen rest
    else e :: dedupFilter (dedupKey e :: seen) rest

/-- The extractor's de-duplication pass. -/
def dedup (l : List Str) : List Str := dedupFilter [] l

/-- `TARGET_YEAR`. -/
def TARGET_YEAR : Str := "2025".data

/-- `TARGET_KEYWORD`. -/
def TARGET_KEYWORD : Str := "ICONAT".data

/-- The match predicate of `check_for_2025_iconat`: the entry contains
`TARGET_YEAR` (case-sensitive) and its lower-cased text contains the
lower-cased `TARGET_KEYWORD`. -/
def matchPred (e : Str) : Bool :=
  containsSub e TARGET_YEAR && containsSub (lowerStr e) (lowerStr TARGET_KEYWORD)

/-- `check_for_2025_iconat`: return the first entry satisfying `matchPred`,
`none` otherwise. -/
def check_for_2025_iconat : List Str → Option Str
  | [] => none
  | e :: rest => if matchPred e then some e else check_for_2025_iconat rest

/-- A JSON value as `json.load` can produce (numbers restricted to the
integers, which covers every value the program ever writes). -/
inductive Json where
  | null : Json
  | bool : Bool → Json
  | num : Int → Json
  | str : Str → Json
  | arr : List Json → Json
  | obj : List (Str × Json) → Json

/-- Python truthiness of a JSON value (`if state.get(...)`). -/
def truthy : Json → Bool
  | .null => false
  | .bool b => b
  | .num n => decide (n ≠ 0)
  | .str t => !t.isEmpty
  | .arr xs => !xs.isEmpty
  | .obj fs => !fs.isEmpty

/-- `dict.get(k, d)` on an object's (unique-keyed) field list. -/
def lookupD (fs : List (Str × Json)) (k : Str) (d : Json) : Json :=
  match fs.find? (fun p => decide (p.1 = k)) with
  | some p => p.2
  | none => d

/-- `state[k] = v` on a dict: replace the value in place, or append the
new key at the end (Python dict insertion order). -/
def setField : List (Str × Json) → Str → Json → List (Str × Json)
  | [], k, v => [(k, v)]
  | (k', v') :: rest, k, v =>
    if k' = k then (k, v) :: rest else (k', v') :: setField rest k v

/-- The `"notified"` key. -/
def notifiedKey : Str := "notified".data

/-- The default state `{"notified": False}`. -/
def defaultState : Json := .obj [(notifiedKey, .bool false)]

/-- The state file: absent, present but unreadable/unparseable, or holding
a JSON value (`json.dump`/`json.load` round-trip the value). -/
inductive FileContent where
  | absent : FileContent
  | unparseable : FileContent
  | json : Json → FileContent

/-- The storage the state file lives on: its current content, and whether
writes succeed (`open(..., "w")`/`json.dump` raise `IOError` otherwise). -/
structure Store where
  file : FileContent
  writable : Bool

/-- Errors the modelled Python code can raise. -/
inductive PyError where
  | ioError : PyError
  | attributeError : PyError

/-- `save_state`: write the state or re-raise the `IOError`. -/
def save_state (v : Json) (st : Store) : Except PyError Store :=
  if st.writable then .ok { st with file := .json v } else .error .ioError

/-- `load_state`: return the parsed file if it is readable; otherwise fall
back to the default state and persist it with `save_state` (whose `IOError`
propagates).  Returns the loaded value and the store after the call. -/
def load_state (st : Store) : Except PyError (Json × Store) :=
  match st.file with
  | .json v => .ok (v, st)
  | _ =>
    match save_state defaultState st with
    | .ok st' => .ok (defaultState, st')
    | .error e => .error e

/-- The fetcher's product: the raw page string (whose Python truthiness
`main` tests) together with its BeautifulSoup parse. -/
structure Page where
  raw : Str
  dom : Node

/-- The typed run outcomes of the coordinator (spec §4.4), one per `main`
branch. -/
inductive RunResult where
  | AlreadyNotified | FetchFailed | NoEntriesFound | NoMatchYet
  | NotifiedSuccessfully | NotifiedButSendFailed | UnexpectedError
deriving DecidableEq

/-- The Python `main`, embedded branch-for-branch (named `mainRun` here).  External effects are parameters:
`f` is `fetch_page`'s result and `sOk` is `send_notification`'s result.
The value is the run outcome, the process exit code, the store after the
run, and whether the notifier was invoked.  Exceptions (a failing
`save_state`, or `state.get` on a non-dict JSON value) propagate to the
top-level handler, which returns exit code 1 with the store as it was when
the exception was raised. -/
def mainRun (f : Option Page) (sOk : Bool) (st : Store) : RunResult × Nat × Store × Bool :=
  match load_state st with
  | .error _ => (.UnexpectedError, 1, st, false)
  | .ok (state, st1) =>
    match state with
    | .obj fs =>
      if truthy (lookupD fs notifiedKey (.bool false)) then (.AlreadyNotified, 0, st1, false)
      else
        match f with
        | none => (.FetchFailed, 1, st1, false)
        | some pg =>
          if pg.raw.isEmpty then (.FetchFailed, 1, st1, false)
          else if (parse_proceedings pg.dom).isEmpty then (.NoEntriesFound, 0, st1, false)
          else
            match check_for_2025_iconat (parse_proceedings pg.dom) with
            | none => (.NoMatchYet, 0, st1, false)
            | some _ =>
              match save_state (.obj (setField fs notifiedKey (.bool true))) st1 with
              | .error _ => (.UnexpectedError, 1, st1, true)
              | .ok st2 =>
                if sOk then (.NotifiedSuccessfully, 0, st2, true)
                else (.NotifiedButSendFailed, 1, st2, true)
    | _ => (.UnexpectedError, 1, st1, false)

/-- A sequence of scheduled runs: final store, and whether any run in the
sequence invoked the notifier. -/
def runTrace : List (Option Page × Bool) → Store → Store × Bool
  | [], st => (st, false)
  | (f, sOk) :: rest, st =>
    let r := mainRun f sOk st
    let rec' := runTrace rest r.2.2.1
    (rec'.1, r.2.2.2 || rec'.2)

/-- Does a run on this store take the already-notified short-circuit:
the file parses to a dict whose `"notified"` value is truthy? -/
def startsNotified (st : Store) : Bool :=
  match st.file with
  | .json (.obj fs) => truthy (lookupD fs notifiedKey (.bool false))
  | _ => false

/-- The `NotificationState` a run observes: the parsed file when readable,
the fresh default otherwise. -/
def loadedState (st : Store) : Json :=
  match st.file with
  | .json v => v
  | _ => defaultState

/-- Modelled from the claim's words (C1): apply the strategies in priority
order and stop as soon as one yields at least one entry, de-duplicating the
result. -/
def extractClaim (doc : Node) : List Str :=
  let s1 := strategy1 (pageLinesOf doc)
  if !s1.isEmpty then dedup s1
  else
    let s2 := strategy2 doc
    if !s2.isEmpty then dedup s2
    else dedup (strategy3 doc)

/-- Concrete page: strategy 1 anchors on the first line, and the
"all-proceedings" link makes strategy 3 contribute a second entry. -/
def exDoc1 : Node :=
  .elem "[document]".data [] [
    .elem "body".data [] [
      .text "ICONAT 2025 Proceedings published".data,
      .elem "div".data [] [
        .elem "a".data [("href".data, "x/all-proceedings".data)] [.text "Archive".data],
        .elem "p".data [] [.text "Great symposium of robotics 2023 edition".data]
      ]
    ]
  ]

/-- Concrete page: no flattened line anchors (the year and the keyword sit
in different text nodes), but the enclosing `li` satisfies strategy 2. -/
def exDoc6 : Node :=
  .elem "[document]".data [] [
    .elem "body".data [] [
      .elem "li".data [] [
        .text "ICONAT proceedings of the conference".data,
        .text "2025 edition Goa".data
      ]
    ]
  ]

/-- A structural-element text that carries a year and the conference token
"advancement in technology" but none of the tokens strategy 2 checks. -/
def t6 : Str := "Advancement in Technology 2025 Summit gala".data

/-- A document whose only candidate element has text `t6`. -/
def exDoc6b : Node :=
  .elem "[document]".data [] [
    .elem "body".data [] [.elem "p".data [] [.text t6]]
  ]

/-- Concrete page producing a 2025 ICONAT match via strategy 1. -/
def pg0 : Page :=
  { raw := "x".data,
    dom := .elem "[document]".data [] [
      .elem "body".data [] [.text "ICONAT 2025 Proceedings of fun".data]
    ] }

/-- Modelled from the claim (C6): the emission test the claim ascribes to
strategy 2, with the conference tokens "drawn from the same token sets used
by strategy 1". -/
def emitStrategy2Claim (t : Str) : Bool :=
  decide (t.length > 20) && hasYear t && hasConf confTokens1 t

/-- Is a JSON value an object (a Python dict after `json.load`)? -/
def isObj : Json → Bool
  | .obj _ => true
  | _ => false

/-- A store holding `{"notified": true}` on writable storage. -/
def stDone : Store :=
  { file := .json (.obj [(notifiedKey, .bool true)]), writable := true }

/-- A store holding `{}` (no `notified` field) on writable storage. -/
def stEmptyObj : Store := { file := .json (.obj []), writable := true }

/-- A store whose state file holds the JSON list `[]` on writable storage. -/
def stArr : Store := { file := .json (.arr []), writable := true }

/-- Concrete entry list for the match-detector witness: the year-and-keyword
entry sits second, behind a non-matching entry. -/
def entriesW : List Str :=
  ["conference archive page".data, "ICONAT 2025 proceedings live".data]

/-! ### Helper lemmas -/

theorem foldl_ite_append (c : α → Bool) (g : α → β) (l : List α) (acc : List β) :
    l.foldl (fun a x => if c x then a ++ [g x] else a) acc =
      acc ++ l.filterMap (fun x => if c x then some (g x) else none) := by
  induction l generalizing acc with
  | nil => simp
  | cons x xs ih =>
    simp only [List.foldl_cons, List.filterMap_cons]
    by_cases h : c x = true
    · simp [h, ih, List.append_assoc]
    · simp [Bool.not_eq_true] at h
      simp [h, ih]

theorem dedupLoop_eq (l : List Str) : ∀ seen acc,
    dedupLoop seen acc l = acc ++ dedupFilter seen l := by
  induction l with
  | nil => intro seen acc; simp [dedupLoop, dedupFilter]
  | cons e rest ih =>
    intro seen acc
    simp only [dedupLoop, dedupFilter]
    by_cases h : dedupKey e ∈ seen
    · simp [h, ih]
    · simp [h, ih, List.append_assoc]

theorem ite_isEmpty_append (s t : List α) : (if t.isEmpty then s else s ++ t) = s ++ t := by
  cases t <;> simp

theorem strategyAssemble (a b c : List α) :
    (if a.isEmpty then a ++ b else a) ++ c = a ++ ((if a.isEmpty then b else []) ++ c) := by
  cases a <;> simp

theorem parse_characterization (doc : Node) :
    parse_proceedings doc =
      dedup (strategy1 (pageLinesOf doc) ++
        (if (strategy1 (pageLinesOf doc)).isEmpty then strategy2 doc else []) ++
        strategy3 doc) := by
  simp only [parse_proceedings, dedup, foldl_ite_append, List.nil_append, dedupLoop_eq]
  rw [ite_isEmpty_append]
  simp only [strategy1, strategy2, strategy3, strategyAssemble, List.append_assoc]

theorem dedupFilter_sublist (l : List Str) :
    ∀ seen, List.Sublist (dedupFilter seen l) l := by
  induction l with
  | nil => intro seen; simp [dedupFilter]
  | cons e rest ih =>
    intro seen
    simp only [dedupFilter]
    by_cases h : dedupKey e ∈ seen
    · simp only [h, if_true]
      exact List.Sublist.cons e (ih seen)
    · simp only [h, if_false]
      exact List.Sublist.cons₂ e (ih (dedupKey e :: seen))

theorem dedupFilter_covers (l : List Str) :
    ∀ seen e, e ∈ l →
      dedupKey e ∈ seen ∨ ∃ e', e' ∈ dedupFilter seen l ∧ dedupKey e' = dedupKey e := by
  induction l with
  | nil => intro _ e he; exact absurd he (List.not_mem_nil e)
  | cons x rest ih =>
    intro seen e he
    simp only [dedupFilter]
    by_cases h : dedupKey x ∈ seen
    · simp only [h, if_true]
      rcases List.mem_cons.mp he with rfl | hr
      · exact Or.inl h
      · exact ih seen e hr
    · simp only [h, if_false]
      rcases List.mem_cons.mp he with rfl | hr
      · exact Or.inr ⟨e, List.mem_cons_self e _, rfl⟩
      · rcases ih (dedupKey x :: seen) e hr with hk | ⟨e', he', hkey⟩
        · rcases List.mem_cons.mp hk with hkx | hks
          · exact Or.inr ⟨x, List.mem_cons_self x _, hkx.symm⟩
          · exact Or.inl hks
        · exact Or.inr ⟨e', List.mem_cons_of_mem x he', hkey⟩

theorem dedupFilter_keys (l : List Str) :
    ∀ seen, (∀ e ∈ dedupFilter seen l, dedupKey e ∉ seen) ∧
      List.Pairwise (fun a b => dedupKey a ≠ dedupKey b) (dedupFilter seen l) := by
  induction l with
  | nil => intro seen; simp [dedupFilter]
  | cons x rest ih =>
    intro seen
    simp only [dedupFilter]
    by_cases h : dedupKey x ∈ seen
    · simp only [h, if_true]
      exact ih seen
    · simp only [h, if_false]
      obtain ⟨ihMem, ihPw⟩ := ih (dedupKey x :: seen)
      constructor
      · intro e he
        rcases List.mem_cons.mp he with rfl | hr
        · exact h
        · exact fun hs => ihMem e hr (List.mem_cons_of_mem _ hs)
      · refine List.Pairwise.cons ?_ ihPw
        intro b hb
        have := ihMem b hb
        intro hEq
        exact this (by rw [← hEq]; exact List.mem_cons_self _ _)

theorem dedupFilter_first (l : List Str) :
    ∀ seen e, e ∈ dedupFilter seen l →
      l.find? (fun x => decide (dedupKey x = dedupKey e)) = some e := by
  induction l with
  | nil => intro _ e he; simp [dedupFilter] at he
  | cons x rest ih =>
    intro seen e he
    rw [dedupFilter] at he
    by_cases h : dedupKey x ∈ seen
    · rw [if_pos h] at he
      have hne : dedupKey x ≠ dedupKey e := by
        intro hEq
        exact (dedupFilter_keys rest seen).1 e he (hEq ▸ h)
      rw [List.find?_cons_of_neg _ (by simpa using hne)]
      exact ih seen e he
    · rw [if_neg h] at he
      rcases List.mem_cons.mp he with rfl | hr
      · rw [List.find?_cons_of_pos _ (by simp)]
      · have hne : dedupKey x ≠ dedupKey e := by
          intro hEq
          exact (dedupFilter_keys rest (dedupKey x :: seen)).1 e hr
            (by rw [← hEq]; exact List.mem_cons_self _ _)
        rw [List.find?_cons_of_neg _ (by simpa using hne)]
        exact ih (dedupKey x :: seen) e hr

theorem load_state_json {st : Store} {v : Json} (h : st.file = .json v) :
    load_state st = .ok (v, st) := by
  unfold load_state
  rw [h]

theorem load_state_ok {st st' : Store} {v : Json}
    (h : load_state st = .ok (v, st')) :
    loadedState st' = loadedState st ∧ ∀ u, st.file = .json u → v = u ∧ st' = st := by
  unfold load_state at h
  cases hf : st.file with
  | json u =>
    rw [hf] at h
    cases h
    exact ⟨rfl, fun u' hu => by injection hu with h2; exact ⟨h2, rfl⟩⟩
  | absent =>
    rw [hf] at h
    unfold save_state at h
    by_cases hw : st.writable
    · rw [if_pos hw] at h
      cases h
      simp [loadedState, hf]
    · rw [if_neg hw] at h
      cases h
  | unparseable =>
    rw [hf] at h
    unfold save_state at h
    by_cases hw : st.writable
    · rw [if_pos hw] at h
      cases h
      simp [loadedState, hf]
    · rw [if_neg hw] at h
      cases h

theorem lookupD_setField (fs : List (Str × Json)) (k : Str) (v d : Json) :
    lookupD (setField fs k v) k d = v := by
  induction fs with
  | nil => simp [setField, lookupD, List.find?]
  | cons p rest ih =>
    simp only [setField]
    by_cases h : p.1 = k
    · rw [if_pos h]
      simp [lookupD, List.find?]
    · rw [if_neg h]
      simp only [lookupD, List.find?] at ih ⊢
      rw [decide_eq_false h]
      exact ih

theorem already_notified_noop (f : Option Page) (sOk : Bool) (st : Store)
    (h : startsNotified st = true) :
    mainRun f sOk st = (.AlreadyNotified, 0, st, false) := by
  unfold startsNotified at h
  cases hf : st.file with
  | absent => rw [hf] at h; exact Bool.noConfusion h
  | unparseable => rw [hf] at h; exact Bool.noConfusion h
  | json v =>
    rw [hf] at h
    cases v with
    | obj fs =>
      have h' : truthy (lookupD fs notifiedKey (Json.bool false)) = true := h
      unfold mainRun
      rw [load_state_json hf]
      simp [h']
    | null => exact Bool.noConfusion h
    | bool b => exact Bool.noConfusion h
    | num n => exact Bool.noConfusion h
    | str t => exact Bool.noConfusion h
    | arr xs => exact Bool.noConfusion h

theorem runTrace_noop (st : Store) (h : startsNotified st = true) :
    ∀ runs, runTrace runs st = (st, false) := by
  intro runs
  induction runs with
  | nil => rfl
  | cons r rest ih =>
    obtain ⟨f, sOk⟩ := r
    simp [runTrace, already_notified_noop f sOk st h, ih]

/-! ### Claim theorems -/

/-- C1 (counterexample): on `exDoc1`, strategy 1 yields an entry, yet
strategy 3 still contributes a further entry to the final result, so the
extractor is not the early-stopping pipeline the claim describes. -/
theorem extractor_early_stop_counterexample :
    strategy1 (pageLinesOf exDoc1) ≠ [] ∧
    strategy3 exDoc1 ≠ [] ∧
    parse_proceedings exDoc1 ≠ extractClaim exDoc1 ∧
    parse_proceedings exDoc1 =
      dedup (strategy1 (pageLinesOf exDoc1) ++ strategy3 exDoc1) := by
  decide

/-- C1 (amended): the extractor concatenates, in strategy order, the
strategy-1 entries, the strategy-2 entries only when strategy 1 yielded
nothing, and the strategy-3 entries unconditionally, then de-duplicates. -/
theorem extractor_strategy_composition (doc : Node) :
    parse_proceedings doc =
      dedup (strategy1 (pageLinesOf doc) ++
        (if (strategy1 (pageLinesOf doc)).isEmpty then strategy2 doc else []) ++
        strategy3 doc) :=
  parse_characterization doc

/-- C2: `check_for_2025_iconat` returns the first entry (in order) that
contains the year token and, lower-cased, the keyword token — both on that
same entry — and returns `none` iff no entry satisfies the conjunction. -/
theorem findMatch_first_conjunction (entries : List Str) :
    (∀ e, check_for_2025_iconat entries = some e →
      matchPred e = true ∧
      ∃ i : Nat, entries[i]? = some e ∧
        ∀ j : Nat, j < i → ∃ e', entries[j]? = some e' ∧ matchPred e' = false) ∧
    (check_for_2025_iconat entries = none ↔ ∀ e ∈ entries, matchPred e = false) := by
  induction entries with
  | nil =>
    constructor
    · intro e h; cases h
    · simp [check_for_2025_iconat]
  | cons x rest ih =>
    by_cases hx : matchPred x = true
    · constructor
      · intro e h
        rw [check_for_2025_iconat, if_pos hx] at h
        injection h with h2
        subst h2
        exact ⟨hx, 0, by simp, fun j hj => absurd hj (Nat.not_lt_zero j)⟩
      · rw [check_for_2025_iconat, if_pos hx]
        constructor
        · intro h; cases h
        · intro hall
          have := hall x (List.mem_cons_self x rest)
          rw [hx] at this
          cases this
    · have hx' : matchPred x = false := by
        cases hmx : matchPred x
        · rfl
        · exact absurd hmx hx
      constructor
      · intro e h
        rw [check_for_2025_iconat, if_neg hx] at h
        obtain ⟨hm, i, hi, hfirst⟩ := ih.1 e h
        refine ⟨hm, i + 1, by simpa using hi, ?_⟩
        intro j hj
        cases j with
        | zero => exact ⟨x, by simp, hx'⟩
        | succ j' =>
          have := hfirst j' (Nat.lt_of_succ_lt_succ hj)
          simpa using this
      · rw [check_for_2025_iconat, if_neg hx, ih.2]
        constructor
        · intro hall e he
          rcases List.mem_cons.mp he with rfl | hr
          · exact hx'
          · exact hall e hr
        · intro hall e he
          exact hall e (List.mem_cons_of_mem x he)

/-- C2 (witness): on a concrete entry list the detector reports the second
entry, and the entry before it fails the predicate. -/
theorem findMatch_first_conjunction_witness :
    matchPred "ICONAT 2025 proceedings live".data = true ∧
    ∃ i : Nat, entriesW[i]? = some "ICONAT 2025 proceedings live".data ∧
      ∀ j : Nat, j < i → ∃ e', entriesW[j]? = some e' ∧ matchPred e' = false :=
  (findMatch_first_conjunction entriesW).1 "ICONAT 2025 proceedings live".data (by decide)

/-- C7: the de-duplication pass returns a subsequence of its input (so
first-seen order is preserved), no two surviving entries share a
lower-cased 100-character prefix key, every input entry is represented by
a surviving entry with its key, and each survivor is the first input entry
bearing its key. -/
theorem dedup_first_seen_collapse (l : List Str) :
    List.Sublist (dedup l) l ∧
    List.Pairwise (fun a b => dedupKey a ≠ dedupKey b) (dedup l) ∧
    (∀ e, e ∈ l → ∃ e', e' ∈ dedup l ∧ dedupKey e' = dedupKey e) ∧
    (∀ e, e ∈ dedup l →
      l.find? (fun x => decide (dedupKey x = dedupKey e)) = some e) := by
  refine ⟨dedupFilter_sublist l [], (dedupFilter_keys l []).2, ?_,
    fun e he => dedupFilter_first l [] e he⟩
  intro e he
  rcases dedupFilter_covers l [] e he with hk | h
  · exact absurd hk (List.not_mem_nil _)
  · exact h

/-- C7 (witness): on a concrete list with two case-insensitively equal
prefixes, the collapsed representative carries the shared key. -/
theorem dedup_first_seen_collapse_witness :
    ∃ e', e' ∈ dedup ["Abc".data, "aBc".data, "xyz".data] ∧
      dedupKey e' = dedupKey "aBc".data :=
  (dedup_first_seen_collapse ["Abc".data, "aBc".data, "xyz".data]).2.2.1
    "aBc".data (by decide)

/-- C3: when a match is found and the notifier fails, the coordinator still
sets `notified` to true, persists it, returns the failed-send outcome with
exit code 1, and no later run ever invokes the notifier again. -/
theorem send_failure_marks_notified (pg : Page) (fs : List (Str × Json))
    (st : Store) (m : Str)
    (hw : st.writable = true) (hf : st.file = .json (.obj fs))
    (hn : truthy (lookupD fs notifiedKey (.bool false)) = false)
    (hr : pg.raw.isEmpty = false)
    (hm : check_for_2025_iconat (parse_proceedings pg.dom) = some m) :
    mainRun (some pg) false st =
      (.NotifiedButSendFailed, 1,
        { st with file := .json (.obj (setField fs notifiedKey (.bool true))) }, true) ∧
    ∀ runs, runTrace runs
        { st with file := .json (.obj (setField fs notifiedKey (.bool true))) } =
      ({ st with file := .json (.obj (setField fs notifiedKey (.bool true))) }, false) := by
  have hentries : (parse_proceedings pg.dom).isEmpty = false := by
    cases hp : parse_proceedings pg.dom with
    | nil => rw [hp] at hm; cases hm
    | cons a l => rfl
  constructor
  · unfold mainRun
    rw [load_state_json hf]
    simp only [hn, Bool.false_eq_true, if_false, hr, hentries, hm]
    unfold save_state
    simp [hw]
  · intro runs
    apply runTrace_noop
    unfold startsNotified
    simp [lookupD_setField, truthy]

/-- C3 (witness): concrete failed-send run on an empty-object state file
with a page whose extraction matches 2025 ICONAT. -/
theorem send_failure_marks_notified_witness :
    mainRun (some pg0) false stEmptyObj =
      (.NotifiedButSendFailed, 1,
        { stEmptyObj with
          file := .json (.obj (setField [] notifiedKey (.bool true))) }, true) ∧
    ∀ runs, runTrace runs
        { stEmptyObj with
          file := .json (.obj (setField [] notifiedKey (.bool true))) } =
      ({ stEmptyObj with
          file := .json (.obj (setField [] notifiedKey (.bool true))) }, false) :=
  send_failure_marks_notified pg0 [] stEmptyObj
    "ICONAT 2025 Proceedings of fun".data rfl rfl (by decide) (by decide) (by decide)

/-- C4: a run that starts with a truthy persisted `notified` flag returns
AlreadyNotified with exit code 0, leaves the store untouched, does not
invoke the notifier, and every sequence of later runs does the same —
and `startsNotified` never reverts on any run. -/
theorem done_state_terminal (st : Store) (h : startsNotified st = true) :
    (∀ f sOk, mainRun f sOk st = (.AlreadyNotified, 0, st, false)) ∧
    (∀ runs, runTrace runs st = (st, false)) ∧
    (∀ f sOk st', startsNotified st' = true →
      startsNotified ((mainRun f sOk st').2.2.1) = true) :=
  ⟨fun f sOk => already_notified_noop f sOk st h,
   runTrace_noop st h,
   fun f sOk st' h' => by rw [already_notified_noop f sOk st' h']; exact h'⟩

/-- C4 (witness): the terminal behaviour on a concrete
`{"notified": true}` store. -/
theorem done_state_terminal_witness :
    (∀ f sOk, mainRun f sOk stDone = (.AlreadyNotified, 0, stDone, false)) ∧
    (∀ runs, runTrace runs stDone = (stDone, false)) ∧
    (∀ f sOk st', startsNotified st' = true →
      startsNotified ((mainRun f sOk st').2.2.1) = true) :=
  done_state_terminal stDone (by decide)

/-- C5 (counterexample): with the state file absent and the storage
unwritable, `load_state` raises instead of returning — so load can fail
its caller. -/
theorem load_state_can_fail_counterexample :
    load_state { file := .absent, writable := false } = .error .ioError := rfl

/-- C5 (amended): read and parse errors are absorbed — when the persist of
the fresh default succeeds, an absent or unparseable file yields
`{notified: false}`, persisted before returning, and a parseable file is
returned as-is; only a failure to persist the default propagates. -/
theorem load_state_self_healing (st : Store) (hw : st.writable = true) :
    (∀ v, st.file = .json v → load_state st = .ok (v, st)) ∧
    ((st.file = .absent ∨ st.file = .unparseable) →
      load_state st = .ok (defaultState, { st with file := .json defaultState })) := by
  constructor
  · intro v hv; exact load_state_json hv
  · intro hcase
    unfold load_state save_state
    rcases hcase with h | h <;> rw [h] <;> simp [hw]

/-- C5 (witness): self-healing on a concrete writable store with no state
file. -/
theorem load_state_self_healing_witness :
    load_state { file := .absent, writable := true } =
      .ok (defaultState, { file := .json defaultState, writable := true }) :=
  (load_state_self_healing { file := .absent, writable := true } rfl).2 (Or.inl rfl)

/-- C6 (counterexample): `t6` is over 20 characters, carries a year token
and the strategy-1 conference token "advancement in technology", so the
claim's emission rule accepts it; yet strategy 2 emits nothing on a page
whose only candidate node has exactly that text. -/
theorem strategy2_token_set_counterexample :
    emitStrategy2Claim t6 = true ∧
    (findAllTags tags2 exDoc6b).map (getText " ".data) = [t6] ∧
    strategy2 exDoc6b = [] := by
  decide

/-- C6 (amended): when strategy 1 yields nothing, a structural node's text
is contributed by strategy 2 iff it exceeds 20 characters and matches a
year token and one of the three conference tokens "iconat",
"international conference", "conference for advancement" — the same sets
as strategy 1 except that "advancement in technology" is absent. -/
theorem strategy2_emission_rule (doc : Node)
    (h : strategy1 (pageLinesOf doc) = []) :
    parse_proceedings doc =
      dedup ((findAllTags tags2 doc).filterMap
          (fun el =>
            if decide ((getText " ".data el).length > 20) &&
                hasYear (getText " ".data el) &&
                hasConf ["iconat".data, "international conference".data,
                  "conference for advancement".data] (getText " ".data el)
            then some (getText " ".data el) else none) ++
        strategy3 doc) := by
  rw [parse_characterization doc, h]
  simp [strategy2, emitStrategy2, confTokens2]

/-- C6 (witness): on `exDoc6` strategy 1 finds no anchor line and the
composition theorem applies, the `li` node being emitted by strategy 2. -/
theorem strategy2_emission_rule_witness :
    strategy1 (pageLinesOf exDoc6) = [] ∧
    parse_proceedings exDoc6 =
      dedup ((findAllTags tags2 exDoc6).filterMap
          (fun el =>
            if decide ((getText " ".data el).length > 20) &&
                hasYear (getText " ".data el) &&
                hasConf ["iconat".data, "international conference".data,
                  "conference for advancement".data] (getText " ".data el)
            then some (getText " ".data el) else none) ++
        strategy3 exDoc6) :=
  ⟨by decide, strategy2_emission_rule exDoc6 (by decide)⟩

/-- C8: the process exit code is 0 exactly when the run outcome is
AlreadyNotified, NoEntriesFound, NoMatchYet or NotifiedSuccessfully, and
non-zero (namely 1) exactly for FetchFailed, NotifiedButSendFailed and
UnexpectedError. -/
theorem exit_code_partition (f : Option Page) (sOk : Bool) (st : Store) :
    ((mainRun f sOk st).2.1 = 0) ↔
      ((mainRun f sOk st).1 = RunResult.AlreadyNotified ∨
       (mainRun f sOk st).1 = RunResult.NoEntriesFound ∨
       (mainRun f sOk st).1 = RunResult.NoMatchYet ∨
       (mainRun f sOk st).1 = RunResult.NotifiedSuccessfully) := by
  unfold mainRun
  repeat' split
  all_goals simp

/-- C9: a run ending in FetchFailed, NoEntriesFound or NoMatchYet performs
no state mutation: the NotificationState a later run would load is the one
this run loaded, and a readable state file is untouched byte-for-byte. -/
theorem transient_outcomes_preserve_state (f : Option Page) (sOk : Bool) (st : Store)
    (h : (mainRun f sOk st).1 = RunResult.FetchFailed ∨
         (mainRun f sOk st).1 = RunResult.NoEntriesFound ∨
         (mainRun f sOk st).1 = RunResult.NoMatchYet) :
    loadedState ((mainRun f sOk st).2.2.1) = loadedState st ∧
    ∀ v, st.file = .json v → (mainRun f sOk st).2.2.1 = st := by
  revert h
  unfold mainRun
  repeat' split
  all_goals intro h
  any_goals (exfalso; simp at h; done)
  all_goals
    (obtain ⟨hload, hjson⟩ := load_state_ok (by assumption);
      exact ⟨hload, fun v hv => (hjson v hv).2⟩)

/-- C9 (witness): a concrete FetchFailed run leaves the store untouched. -/
theorem transient_outcomes_preserve_state_witness :
    loadedState ((mainRun none true stEmptyObj).2.2.1) = loadedState stEmptyObj ∧
    ∀ v, stEmptyObj.file = .json v →
      (mainRun none true stEmptyObj).2.2.1 = stEmptyObj :=
  transient_outcomes_preserve_state none true stEmptyObj (Or.inl (by decide))

/-- C10 (counterexample): with the state file holding the well-formed JSON
list `[]`, a run that could otherwise notify ends as UnexpectedError with
exit code 1 — it does not proceed as PENDING. -/
theorem nonobject_state_counterexample :
    mainRun (some pg0) true stArr =
      (.UnexpectedError, 1, stArr, false) := rfl

/-- C10 (amended): well-formed JSON is returned by load unchanged and
without re-persisting; an object lacking the `notified` field makes the
already-notified check see false, so the run never short-circuits as
AlreadyNotified; a non-object value instead fails the check and the run
ends as UnexpectedError with the store untouched. -/
theorem missing_field_pending (v : Json) (st : Store) (hf : st.file = .json v) :
    load_state st = .ok (v, st) ∧
    (∀ fs, v = .obj fs →
      fs.find? (fun p => decide (p.1 = notifiedKey)) = none →
      ∀ f sOk, (mainRun f sOk st).1 ≠ RunResult.AlreadyNotified) ∧
    (isObj v = false →
      ∀ f sOk, mainRun f sOk st = (.UnexpectedError, 1, st, false)) := by
  refine ⟨load_state_json hf, ?_, ?_⟩
  · rintro fs rfl hnone f sOk
    have hn : truthy (lookupD fs notifiedKey (Json.bool false)) = false := by
      simp [lookupD, hnone, truthy]
    unfold mainRun
    rw [load_state_json hf]
    simp only [hn, Bool.false_eq_true, if_false]
    repeat' split
    all_goals simp
  · intro hv f sOk
    unfold mainRun
    rw [load_state_json hf]
    cases v with
    | obj fs => simp [isObj] at hv
    | null => rfl
    | bool b => rfl
    | num n => rfl
    | str t => rfl
    | arr xs => rfl

/-- C10 (witness): a run on the empty-object state file (no `notified`
field) does not take the already-notified short-circuit. -/
theorem missing_field_pending_witness :
    (mainRun none true stEmptyObj).1 ≠ RunResult.AlreadyNotified :=
  (missing_field_pending (.obj []) stEmptyObj rfl).2.1 [] rfl rfl none true
